import Mathlib

/-!
Verification of the hyperport raw-socket HTTP server (src/main.rs).

The embedding models, faithfully to the Rust source:
  - `parse_request` (src/main.rs:193-210), including Rust's `str::lines`
    (split at `\n`, stripping one `\r` directly before each `\n`) and
    `str::split_whitespace` (split on runs of Unicode whitespace);
  - the fixed 200/400 responses (src/main.rs:212-253);
  - `RawTcpStream::write_all` (src/main.rs:31-51) over an oracle of
    OS-level write outcomes;
  - `handle_connection` (src/main.rs:170-191) as a response function and
    as an event trace including the implicit `Drop` close;
  - `CustomTcpListener::bind` (src/main.rs:67-122) over an oracle of
    OS-call outcomes, tracking acquired and released file descriptors;
  - the accept/dispatch loop of `main` (src/main.rs:156-167).
-/

deriving instance DecidableEq for Except

/-- Rust's `char::is_whitespace`: the Unicode White_Space property. -/
def isRustWhitespace (c : Char) : Bool :=
  c.toNat = 0x09 || c.toNat = 0x0A || c.toNat = 0x0B || c.toNat = 0x0C ||
  c.toNat = 0x0D || c.toNat = 0x20 || c.toNat = 0x85 || c.toNat = 0xA0 ||
  c.toNat = 0x1680 || (0x2000 ≤ c.toNat && c.toNat ≤ 0x200A) ||
  c.toNat = 0x2028 || c.toNat = 0x2029 || c.toNat = 0x202F ||
  c.toNat = 0x205F || c.toNat = 0x3000

/-- Rust's `str::lines` on the decoded request text (src/main.rs:194):
lines are separated at `\n` or `\r\n` (the `\r` of a `\r\n` pair is
stripped), the final line ending is optional, a lone `\r` not followed by
`\n` stays in its line, and the empty string yields no lines. -/
def rustLines : List Char → List (List Char)
  | [] => []
  | '\r' :: '\n' :: rest => [] :: rustLines rest
  | '\n' :: rest => [] :: rustLines rest
  | c :: rest =>
    match rustLines rest with
    | [] => [[c]]
    | l :: ls => (c :: l) :: ls

/-- Worker for `splitWhitespaceRust`: `acc` holds the reversed characters
of the token currently being scanned. -/
def splitWSAux : List Char → List Char → List (List Char)
  | [], acc => if acc.isEmpty then [] else [acc.reverse]
  | c :: cs, acc =>
    if isRustWhitespace c then
      if acc.isEmpty then splitWSAux cs []
      else acc.reverse :: splitWSAux cs []
    else splitWSAux cs (c :: acc)

/-- Rust's `str::split_whitespace` (src/main.rs:200): split on runs of
Unicode whitespace, discarding empty substrings. -/
def splitWhitespaceRust (s : List Char) : List (List Char) :=
  splitWSAux s []

/-- `parse_request` (src/main.rs:193-210): collect the lines of the lossily
decoded request; error `"Empty request"` when there are none; split the
first line on whitespace; error `"Invalid request line"` when fewer than 3
tokens; otherwise return the first token (method) and second token (path)
verbatim. -/
def parse_request (request : List Char) : Except String (List Char × List Char) :=
  match rustLines request with
  | [] => Except.error "Empty request"
  | requestLine :: _ =>
    let parts := splitWhitespaceRust requestLine
    if parts.length < 3 then
      Except.error "Invalid request line"
    else
      Except.ok (parts.getD 0 [], parts.getD 1 [])

/-- The fixed 200 HTML body (src/main.rs:213-221), the Rust raw string
literal verbatim. -/
def okHtmlBody : String :=
  "<!DOCTYPE html>\n<html>\n<head>\n    <title>Hello World</title>\n</head>\n<body>\n    <h1>Hello, World!</h1>\n</body>\n</html>"

/-- The fixed 400 HTML body (src/main.rs:235-243), the Rust raw string
literal verbatim. -/
def badHtmlBody : String :=
  "<!DOCTYPE html>\n<html>\n<head>\n    <title>Bad Request</title>\n</head>\n<body>\n    <h1>400 Bad Request</h1>\n</body>\n</html>"

/-- The response assembled by `send_ok_response` (src/main.rs:223-227):
the Rust `format!` call expanded, with `html_body.len()` (UTF-8 byte
length) spliced in as the `Content-Length` value. -/
def okResponse : String :=
  "HTTP/1.1 200 OK\r\nContent-Type: text/html; charset=utf-8\r\nConnection: close\r\nContent-Length: "
    ++ toString okHtmlBody.utf8ByteSize ++ "\r\n\r\n" ++ okHtmlBody

/-- The response assembled by `send_bad_request_response`
(src/main.rs:245-249), analogously. -/
def badRequestResponse : String :=
  "HTTP/1.1 400 Bad Request\r\nContent-Type: text/html; charset=utf-8\r\nConnection: close\r\nContent-Length: "
    ++ toString badHtmlBody.utf8ByteSize ++ "\r\n\r\n" ++ badHtmlBody

/-- `handle_connection` (src/main.rs:170-191), viewed as the response it
writes: `none` when the initial read fails (only a log line, no response);
otherwise the 200 response on parse success and the 400 response on any
parse error. The argument is the outcome of `stream.read` after lossy
UTF-8 decoding. -/
def handle_connection (readResult : Except Unit (List Char)) : Option String :=
  match readResult with
  | Except.error _ => none
  | Except.ok request =>
    match parse_request request with
    | Except.ok _ => some okResponse
    | Except.error _ => some badRequestResponse

/-- Events observable on one connection's stream. -/
inductive ConnEvent where
  | evRead : ConnEvent
  | evWrite : String → ConnEvent
  | evClose : ConnEvent
deriving DecidableEq

/-- `handle_connection` (src/main.rs:170-191) as the trace of events on the
accepted stream. The trailing `evClose` is the `Drop` impl of
`RawTcpStream` (src/main.rs:54-60): the stream is owned by value, so Rust
drops it exactly when the function returns, on every path. A failed
`write_all` only logs, so the write attempt appears on the trace either
way. -/
def handle_connection_trace (readResult : Except Unit (List Char)) : List ConnEvent :=
  (match readResult with
   | Except.error _ => [ConnEvent.evRead]
   | Except.ok request =>
     match parse_request request with
     | Except.ok _ => [ConnEvent.evRead, ConnEvent.evWrite okResponse]
     | Except.error _ => [ConnEvent.evRead, ConnEvent.evWrite badRequestResponse])
  ++ [ConnEvent.evClose]

/-- Outcome of one `libc::write` call (src/main.rs:36-41): a byte count on
success, or a negative return (error) from the OS. -/
inductive WStep where
  | wok : Nat → WStep
  | werr : WStep
deriving DecidableEq

/-- The loop of `RawTcpStream::write_all` (src/main.rs:31-51), driven by an
oracle list of OS write outcomes. `total` is `total_written`. Returns
`some (Except.ok total)` when the loop exits with all bytes written,
`some (Except.error total)` on the first OS error (`total` bytes were
already sent), and `none` when the oracle list is exhausted before either
happens. -/
def write_all_go (bufLen : Nat) (total : Nat) : List WStep → Option (Except Nat Nat)
  | [] => if bufLen ≤ total then some (Except.ok total) else none
  | WStep.werr :: _ =>
    if bufLen ≤ total then some (Except.ok total) else some (Except.error total)
  | WStep.wok n :: rest =>
    if bufLen ≤ total then some (Except.ok total)
    else write_all_go bufLen (total + n) rest

/-- `RawTcpStream::write_all` (src/main.rs:31-51): start with
`total_written = 0`. -/
def write_all (bufLen : Nat) (steps : List WStep) : Option (Except Nat Nat) :=
  write_all_go bufLen 0 steps

/-- The hypothesis of spec §4.2 on the OS: each successful partial write
transmits at most the bytes remaining at that point. -/
def boundedSteps (bufLen : Nat) : Nat → List WStep → Bool
  | _, [] => true
  | _, WStep.werr :: _ => true
  | total, WStep.wok n :: rest =>
    decide (total + n ≤ bufLen) && boundedSteps bufLen (total + n) rest

/-- The address argument of `CustomTcpListener::bind` after `addr.parse()`
(src/main.rs:68): an already-parsed `SocketAddr`. -/
inductive RSocketAddr where
  | v4 : Nat → Nat → RSocketAddr
  | v6 : RSocketAddr
deriving DecidableEq

/-- Oracle for the OS calls made by `CustomTcpListener::bind`:
`libc::socket` (`none` = negative return), `libc::setsockopt`,
`libc::bind`, `libc::listen` (`false` = negative return). -/
structure BindOracle where
  socketFd : Option Nat
  sockoptOk : Bool
  osBindOk : Bool
  osListenOk : Bool
deriving DecidableEq

/-- Result of `CustomTcpListener::bind`: a listener owning `fd`, an
`Err(io::Error)` return, or a `panic!`. -/
inductive BindResult where
  | bound : Nat → BindResult
  | osError : BindResult
  | panicked : String → BindResult
deriving DecidableEq

/-- `CustomTcpListener::bind` (src/main.rs:67-122) over a `BindOracle`,
returning the result together with the file descriptors acquired and the
file descriptors closed along the way. The source order is: `socket`
(line 70), `setsockopt` (line 80, closing `fd` on failure), the `match` on
the parsed address building `sockaddr_in` — which `panic!`s on a V6
address (line 100) — then `bind` (line 104) and `listen` (line 115), each
closing `fd` on failure. -/
def custom_bind (addr : RSocketAddr) (os : BindOracle) :
    BindResult × List Nat × List Nat :=
  match os.socketFd with
  | none => (BindResult.osError, [], [])
  | some fd =>
    if os.sockoptOk = false then (BindResult.osError, [fd], [fd])
    else
      match addr with
      | RSocketAddr.v6 =>
        (BindResult.panicked "IPv6 not supported in this example", [fd], [])
      | RSocketAddr.v4 _ _ =>
        if os.osBindOk = false then (BindResult.osError, [fd], [fd])
        else if os.osListenOk = false then (BindResult.osError, [fd], [fd])
        else (BindResult.bound fd, [fd], [])

/-- One outcome of `listener.accept()` in the loop of `main`
(src/main.rs:157). -/
inductive AcceptOutcome where
  | success : Nat → AcceptOutcome
  | failure : AcceptOutcome
deriving DecidableEq

/-- State of the dispatch loop of spec §4.5. -/
inductive LoopState where
  | listening : LoopState
  | stopped : LoopState
deriving DecidableEq

/-- One iteration of the `loop` in `main` (src/main.rs:156-167): on
`Ok(stream)` spawn a thread running `handle_connection` (the spawned
stream is reported), on `Err(e)` log; both arms fall through to the next
iteration, so the state stays `listening`. -/
def dispatch_step (st : LoopState) (o : AcceptOutcome) :
    LoopState × Option Nat :=
  match st, o with
  | LoopState.listening, AcceptOutcome.success fd => (LoopState.listening, some fd)
  | LoopState.listening, AcceptOutcome.failure => (LoopState.listening, none)
  | LoopState.stopped, _ => (LoopState.stopped, none)

/-- The dispatch loop run over a finite list of accept outcomes, returning
the final state and the streams handed to spawned processing units, in
order. -/
def dispatch_run : LoopState → List AcceptOutcome → LoopState × List Nat
  | st, [] => (st, [])
  | st, o :: rest =>
    match dispatch_step st o with
    | (st2, sp) =>
      match dispatch_run st2 rest with
      | (stF, spawned) => (stF, sp.toList ++ spawned)

/-! ### Sanity checks on the embedded definitions -/

example : rustLines "".data = [] := by decide
example : rustLines "\r\n".data = ["".data] := by decide
example : rustLines "a\r\nb".data = ["a".data, "b".data] := by decide
example : rustLines "a\nb\n".data = ["a".data, "b".data] := by decide
example : rustLines "ab\r".data = ["ab\r".data] := by decide
example : rustLines "a\r\r\n".data = ["a\r".data] := by decide
example : splitWhitespaceRust "GET / HTTP/1.1".data =
    ["GET".data, "/".data, "HTTP/1.1".data] := by decide
example : splitWhitespaceRust "  a  bc ".data = ["a".data, "bc".data] := by
  decide
example : splitWhitespaceRust "".data = [] := by decide
example : parse_request "GET / HTTP/1.1\r\nHost: x\r\n".data =
    Except.ok ("GET".data, "/".data) := by decide
example : parse_request "".data = Except.error "Empty request" := by decide
example : parse_request "\r\n".data = Except.error "Invalid request line" := by
  decide
example : parse_request "GET /\r\n".data = Except.error "Invalid request line" := by
  decide
example : write_all 5 [WStep.wok 2, WStep.wok 3] = some (Except.ok 5) := by
  decide
example : write_all 5 [WStep.wok 2, WStep.werr] = some (Except.error 2) := by
  decide
example : dispatch_run LoopState.listening
    [AcceptOutcome.success 4, AcceptOutcome.failure, AcceptOutcome.success 5]
    = (LoopState.listening, [4, 5]) := by decide

/-! ### Helper lemmas about the parsing primitives -/

theorem splitWSAux_nonws_chunk (t : List Char)
    (h : ∀ c ∈ t, isRustWhitespace c = false) (rest : List Char) :
    ∀ acc, splitWSAux (t ++ rest) acc = splitWSAux rest (t.reverse ++ acc) := by
  induction t with
  | nil => intro acc; simp
  | cons c t' ih =>
    intro acc
    have hc : isRustWhitespace c = false := h c (by simp)
    have ih2 := ih (fun x hx => h x (by simp [hx])) (c :: acc)
    simp only [List.cons_append, splitWSAux, hc, List.append_eq]
    rw [if_neg (by simp)]
    rw [ih2]
    simp

theorem splitWS_cons_ws (c : Char) (cs : List Char)
    (h : isRustWhitespace c = true) :
    splitWhitespaceRust (c :: cs) = splitWhitespaceRust cs := by
  simp [splitWhitespaceRust, splitWSAux, h]

theorem splitWS_token (t : List Char) (h1 : t ≠ [])
    (h2 : ∀ c ∈ t, isRustWhitespace c = false) :
    splitWhitespaceRust t = [t] := by
  have hch := splitWSAux_nonws_chunk t h2 [] []
  simp only [List.append_nil] at hch
  unfold splitWhitespaceRust
  rw [hch]
  simp [splitWSAux, h1]

theorem splitWS_token_append (t r : List Char) (w : Char) (h1 : t ≠ [])
    (h2 : ∀ c ∈ t, isRustWhitespace c = false)
    (hw : isRustWhitespace w = true) :
    splitWhitespaceRust (t ++ w :: r) = t :: splitWhitespaceRust r := by
  have hch := splitWSAux_nonws_chunk t h2 (w :: r) []
  unfold splitWhitespaceRust
  rw [hch]
  simp [splitWSAux, hw, h1, splitWhitespaceRust]

theorem rustLines_line_crlf (l t : List Char) (h : ∀ c ∈ l, c ≠ '\n') :
    rustLines (l ++ '\r' :: '\n' :: t) = l :: rustLines t := by
  induction l with
  | nil => simp [rustLines]
  | cons c l' ih =>
    have hc : c ≠ '\n' := h c (by simp)
    have ih2 := ih (fun x hx => h x (by simp [hx]))
    cases l' with
    | nil =>
      simp only [List.nil_append] at ih2
      simp only [List.cons_append, List.nil_append]
      rw [rustLines.eq_def]
      split
      next => simp_all
      next heq => simp at heq
      next heq => simp_all
      next c2 rest hne1 hne2 heq =>
        injection heq with h1 h2
        subst h1; subst h2
        rw [ih2]
    | cons d l'' =>
      have hd : d ≠ '\n' := h d (by simp)
      simp only [List.cons_append]
      rw [rustLines.eq_def]
      split
      next heq => simp at heq
      next heq =>
        injection heq with h1 h2
        injection h2 with h2a h2b
        exact absurd h2a hd
      next heq =>
        injection heq with h1 h2
        exact absurd h1 hc
      next c2 rest hne1 hne2 heq =>
        injection heq with h1 h2
        subst h1
        rw [← List.cons_append] at h2
        rw [← h2]
        rw [h2] at ih2 ⊢
        rw [ih2]

theorem rustLines_ne_nil (c : Char) (cs : List Char) :
    rustLines (c :: cs) ≠ [] := by
  rw [rustLines.eq_def]
  split
  next heq => simp at heq
  next => simp
  next => simp
  next => split <;> simp

theorem rustLines_eq_nil_iff (s : List Char) : rustLines s = [] ↔ s = [] := by
  cases s with
  | nil => simp [rustLines]
  | cons c cs => simp [rustLines_ne_nil c cs]

/-! ### Claim theorems -/

/-- Claim C1: for every input whose first line has three or more
whitespace-separated tokens — in particular every line of the form
`<METHOD> <PATH> HTTP/1.1` — `parse_request` returns `Ok` of exactly the
first and second tokens of the first line, verbatim, with no
normalization, percent-decoding or validation. -/
theorem parse_request_valid_request_line :
    (∀ s l ls, rustLines s = l :: ls →
        3 ≤ (splitWhitespaceRust l).length →
        parse_request s =
          Except.ok ((splitWhitespaceRust l).getD 0 [],
            (splitWhitespaceRust l).getD 1 [])) ∧
    (∀ m p v tail, m ≠ [] → p ≠ [] → v ≠ [] →
        (∀ c ∈ m, isRustWhitespace c = false) →
        (∀ c ∈ p, isRustWhitespace c = false) →
        (∀ c ∈ v, isRustWhitespace c = false) →
        parse_request (m ++ ' ' :: p ++ ' ' :: v ++ '\r' :: '\n' :: tail) =
          Except.ok (m, p)) := by
  have general : ∀ s l ls, rustLines s = l :: ls →
      3 ≤ (splitWhitespaceRust l).length →
      parse_request s =
        Except.ok ((splitWhitespaceRust l).getD 0 [],
          (splitWhitespaceRust l).getD 1 []) := by
    intro s l ls h hlen
    simp only [parse_request, h]
    rw [if_neg (by omega)]
  refine ⟨general, ?_⟩
  intro m p v tail hm hp hv hmw hpw hvw
  have hspace : isRustWhitespace ' ' = true := by decide
  have hline : splitWhitespaceRust (m ++ ' ' :: (p ++ ' ' :: v)) = [m, p, v] := by
    rw [splitWS_token_append m (p ++ ' ' :: v) ' ' hm hmw hspace]
    rw [splitWS_token_append p v ' ' hp hpw hspace]
    rw [splitWS_token v hv hvw]
  have hnonl : ∀ c ∈ m ++ ' ' :: (p ++ ' ' :: v), c ≠ '\n' := by
    intro c hc
    have hnl : isRustWhitespace '\n' = true := by decide
    rcases List.mem_append.mp hc with hcm | hcr
    · intro he; rw [he] at hcm; rw [hmw '\n' hcm] at hnl; simp at hnl
    · rcases hcr with _ | hcr2
      · decide
      · rcases List.mem_append.mp (by assumption) with hcp | hcv
        · intro he; rw [he] at hcp; rw [hpw '\n' hcp] at hnl; simp at hnl
        · rcases hcv with _ | hcv2
          · decide
          · intro he
            have : '\n' ∈ v := by rw [← he]; assumption
            rw [hvw '\n' this] at hnl; simp at hnl
  have hlines : rustLines ((m ++ ' ' :: (p ++ ' ' :: v)) ++ '\r' :: '\n' :: tail)
      = (m ++ ' ' :: (p ++ ' ' :: v)) :: rustLines tail :=
    rustLines_line_crlf _ tail hnonl
  have hshape : m ++ ' ' :: p ++ ' ' :: v ++ '\r' :: '\n' :: tail
      = (m ++ ' ' :: (p ++ ' ' :: v)) ++ '\r' :: '\n' :: tail := by
    simp [List.append_assoc]
  rw [hshape]
  rw [general _ _ _ hlines (by rw [hline]; simp)]
  rw [hline]
  rfl

/-- Witness for C1: the request `GET / HTTP/1.1` followed by a header
line parses to method `GET` and path `/`. -/
theorem parse_request_valid_request_line_witness :
    parse_request ("GET".data ++ ' ' :: "/".data ++ ' ' :: "HTTP/1.1".data
        ++ '\r' :: '\n' :: "Host: x".data) =
      Except.ok ("GET".data, "/".data) :=
  parse_request_valid_request_line.2 "GET".data "/".data "HTTP/1.1".data
    "Host: x".data (by decide) (by decide) (by decide) (by decide) (by decide)
    (by decide)

/-- Claim C3: `parse_request` fails with `"Empty request"` exactly when
the decoded input has no lines, fails with `"Invalid request line"`
exactly when the first line has fewer than 3 whitespace-separated tokens,
and these are its only failure conditions. -/
theorem parse_request_error_conditions (s : List Char) :
    (parse_request s = Except.error "Empty request" ↔ rustLines s = []) ∧
    (parse_request s = Except.error "Invalid request line" ↔
      ∃ l ls, rustLines s = l :: ls ∧ (splitWhitespaceRust l).length < 3) ∧
    ((∃ e, parse_request s = Except.error e) ↔
      (rustLines s = [] ∨
        ∃ l ls, rustLines s = l :: ls ∧ (splitWhitespaceRust l).length < 3)) := by
  rcases h : rustLines s with _ | ⟨l, ls⟩
  · refine ⟨by simp [parse_request, h], ?_, ?_⟩
    · simp only [parse_request, h]
      constructor
      · intro he
        injection he with hmsg
        exact absurd hmsg (by decide)
      · rintro ⟨l, ls, hcontr, _⟩
        simp at hcontr
    · constructor
      · intro _; exact Or.inl rfl
      · intro _; exact ⟨"Empty request", by simp [parse_request, h]⟩
  · by_cases hlen : (splitWhitespaceRust l).length < 3
    · refine ⟨?_, ?_, ?_⟩
      · simp only [parse_request, h, if_pos hlen]
        constructor
        · intro he
          injection he with hmsg
          exact absurd hmsg (by decide)
        · intro hcontr; simp at hcontr
      · simp only [parse_request, h, if_pos hlen]
        exact ⟨fun _ => ⟨l, ls, rfl, hlen⟩, fun _ => by simp⟩
      · constructor
        · intro _; exact Or.inr ⟨l, ls, rfl, hlen⟩
        · intro _
          exact ⟨"Invalid request line", by simp [parse_request, h, if_pos hlen]⟩
    · refine ⟨?_, ?_, ?_⟩
      · simp [parse_request, h, if_neg hlen]
      · simp only [parse_request, h, if_neg hlen]
        constructor
        · intro hcontr; simp at hcontr
        · rintro ⟨l2, ls2, heq, hlen2⟩
          injection heq with he1 he2
          subst he1
          exact absurd hlen2 hlen
      · constructor
        · rintro ⟨e, he⟩
          simp [parse_request, h, if_neg hlen] at he
        · rintro (hcontr | ⟨l2, ls2, heq, hlen2⟩)
          · simp at hcontr
          · injection heq with he1 he2
            subst he1
            exact absurd hlen2 hlen

/-- Witness for C3: on the input `GET /` (one line, two tokens) the parser
fails with `"Invalid request line"`. -/
theorem parse_request_error_conditions_witness :
    parse_request "GET /".data = Except.error "Invalid request line" :=
  (parse_request_error_conditions "GET /".data).2.1.mpr
    ⟨"GET /".data, [], by decide, by decide⟩

/-- Claim C10: `parse_request` returns `"Empty request"` exactly on the
empty input; every non-empty input is never rejected with
`"Empty request"`, and in particular `"\r\n"` (whose only line is empty)
is rejected with `"Invalid request line"`. -/
theorem parse_request_empty_request_iff :
    (∀ s, parse_request s = Except.error "Empty request" ↔ s = []) ∧
    (∀ s, s ≠ [] → parse_request s ≠ Except.error "Empty request") ∧
    parse_request ('\r' :: '\n' :: []) = Except.error "Invalid request line" := by
  have main : ∀ s, parse_request s = Except.error "Empty request" ↔ s = [] := by
    intro s
    cases s with
    | nil => simp [parse_request, rustLines]
    | cons c cs =>
      constructor
      · intro h
        rcases hl : rustLines (c :: cs) with _ | ⟨l, ls⟩
        · exact absurd hl (rustLines_ne_nil c cs)
        · simp only [parse_request, hl] at h
          by_cases hlen : (splitWhitespaceRust l).length < 3
          · rw [if_pos hlen] at h
            injection h with hmsg
            exact absurd hmsg (by decide)
          · rw [if_neg hlen] at h
            exact absurd h (by simp)
      · intro h
        simp at h
  refine ⟨main, ?_, by decide⟩
  intro s hs hcontr
  exact hs ((main s).mp hcontr)

/-- Witness for C10: the non-empty input `"\n"` is not rejected as an
empty request. -/
theorem parse_request_empty_request_iff_witness :
    parse_request ('\n' :: []) ≠ Except.error "Empty request" :=
  parse_request_empty_request_iff.2.1 ('\n' :: []) (by decide)

set_option maxRecDepth 8192 in
/-- Claim C2: each of the two emitted responses is byte-for-byte the
status line, the `Content-Type`, `Connection` and `Content-Length`
headers, a blank line, and the fixed HTML body, where the
`Content-Length` value (118 resp. 120) is the exact UTF-8 byte length of
that body. -/
theorem fixed_responses_exact :
    okResponse =
      "HTTP/1.1 200 OK\r\nContent-Type: text/html; charset=utf-8\r\nConnection: close\r\nContent-Length: 118\r\n\r\n"
        ++ okHtmlBody ∧
    badRequestResponse =
      "HTTP/1.1 400 Bad Request\r\nContent-Type: text/html; charset=utf-8\r\nConnection: close\r\nContent-Length: 120\r\n\r\n"
        ++ badHtmlBody ∧
    okHtmlBody.utf8ByteSize = 118 ∧ badHtmlBody.utf8ByteSize = 120 := by
  refine ⟨?_, ?_, ?_, ?_⟩ <;> decide

/-- Claim C4: whenever the parser fails — with either error — the
connection handler responds with the single 400 response, and the only
responses the handler ever produces are the fixed 200 and 400 ones, so
the two parse failure kinds are indistinguishable on the wire. -/
theorem handle_connection_error_collapse :
    (∀ req e, parse_request req = Except.error e →
        handle_connection (Except.ok req) = some badRequestResponse) ∧
    (∀ o r, handle_connection o = some r →
        r = okResponse ∨ r = badRequestResponse) := by
  constructor
  · intro req e h
    simp [handle_connection, h]
  · intro o r h
    cases o with
    | error e => simp [handle_connection] at h
    | ok req =>
      cases hp : parse_request req with
      | ok v =>
        simp [handle_connection, hp] at h
        exact Or.inl h.symm
      | error e =>
        simp [handle_connection, hp] at h
        exact Or.inr h.symm

/-- Witness for C4: the malformed request `"\r\n"` (error
`"Invalid request line"`) and the empty request (error `"Empty request"`)
both elicit exactly the 400 response. -/
theorem handle_connection_error_collapse_witness :
    handle_connection (Except.ok ('\r' :: '\n' :: [])) = some badRequestResponse
      ∧ handle_connection (Except.ok []) = some badRequestResponse :=
  ⟨handle_connection_error_collapse.1 ('\r' :: '\n' :: [])
      "Invalid request line" (by decide),
    handle_connection_error_collapse.1 [] "Empty request" (by decide)⟩

/-- Claim C6: on every exit path of the connection handler — read error,
parse failure, or successful response, with the write outcome irrelevant —
the accepted stream is closed exactly once, as the final event of the
connection's trace. -/
theorem connection_closed_exactly_once (r : Except Unit (List Char)) :
    (handle_connection_trace r).count ConnEvent.evClose = 1 ∧
    (handle_connection_trace r).getLast? = some ConnEvent.evClose := by
  cases r with
  | error e =>
    simp [handle_connection_trace]
  | ok req =>
    cases hp : parse_request req with
    | ok v => simp [handle_connection_trace, hp, List.count_cons]
    | error e => simp [handle_connection_trace, hp, List.count_cons]

/-! ### Helper lemmas about the write loop -/

theorem write_all_go_ok_eq_bufLen (bufLen : Nat) (steps : List WStep) :
    ∀ total t, total ≤ bufLen → boundedSteps bufLen total steps = true →
      write_all_go bufLen total steps = some (Except.ok t) → t = bufLen := by
  induction steps with
  | nil =>
    intro total t hle _ hgo
    rw [write_all_go] at hgo
    by_cases hx : bufLen ≤ total
    · rw [if_pos hx] at hgo
      injection hgo with h1
      injection h1 with h2
      omega
    · rw [if_neg hx] at hgo
      exact absurd hgo (by simp)
  | cons st rest ih =>
    intro total t hle hb hgo
    cases st with
    | werr =>
      rw [write_all_go] at hgo
      by_cases hx : bufLen ≤ total
      · rw [if_pos hx] at hgo
        injection hgo with h1
        injection h1 with h2
        omega
      · rw [if_neg hx] at hgo
        injection hgo with h1
        exact absurd h1 (by simp)
    | wok n =>
      rw [write_all_go] at hgo
      by_cases hx : bufLen ≤ total
      · rw [if_pos hx] at hgo
        injection hgo with h1
        injection h1 with h2
        omega
      · rw [if_neg hx] at hgo
        simp only [boundedSteps, Bool.and_eq_true, decide_eq_true_eq] at hb
        exact ih (total + n) t hb.1 hb.2 hgo

theorem write_all_go_completes (bufLen : Nat) (ns : List Nat)
    (rest : List WStep) :
    ∀ total, total ≤ bufLen →
      boundedSteps bufLen total (ns.map WStep.wok ++ rest) = true →
      bufLen ≤ total + ns.sum →
      write_all_go bufLen total (ns.map WStep.wok ++ rest) =
        some (Except.ok bufLen) := by
  induction ns with
  | nil =>
    intro total hle hb hsum
    simp only [List.sum_nil, Nat.add_zero] at hsum
    have heq : total = bufLen := by omega
    subst heq
    simp only [List.map_nil, List.nil_append]
    cases hr : rest with
    | nil => rw [write_all_go, if_pos (Nat.le_refl _)]
    | cons st rest2 =>
      cases st with
      | werr => simp [write_all_go]
      | wok n => simp [write_all_go]
  | cons n ns' ih =>
    intro total hle hb hsum
    simp only [List.map_cons, List.cons_append, boundedSteps,
      Bool.and_eq_true, decide_eq_true_eq] at hb
    by_cases hx : bufLen ≤ total
    · have heq : total = bufLen := by omega
      subst heq
      simp only [List.map_cons, List.cons_append]
      rw [write_all_go, if_pos (Nat.le_refl _)]
    · simp only [List.map_cons, List.cons_append]
      rw [write_all_go, if_neg hx]
      have hb2 : boundedSteps bufLen (total + n) (ns'.map WStep.wok ++ rest) = true := by
        have := hb.2
        simpa using this
      refine ih (total + n) hb.1 hb2 ?_
      simp only [List.sum_cons] at hsum
      omega

theorem write_all_go_error_total (bufLen : Nat) (ns : List Nat)
    (rest : List WStep) :
    ∀ total, total + ns.sum < bufLen →
      write_all_go bufLen total (ns.map WStep.wok ++ WStep.werr :: rest) =
        some (Except.error (total + ns.sum)) := by
  induction ns with
  | nil =>
    intro total hsum
    simp only [List.sum_nil, Nat.add_zero] at hsum ⊢
    simp only [List.map_nil, List.nil_append]
    rw [write_all_go, if_neg (by omega)]
  | cons n ns' ih =>
    intro total hsum
    simp only [List.sum_cons] at hsum ⊢
    simp only [List.map_cons, List.cons_append]
    rw [write_all_go, if_neg (by omega)]
    have hrec := ih (total + n) (by omega)
    rw [hrec]
    congr 2
    omega

/-- Claim C5: under the OS contract that each successful partial write
transmits at most the remaining bytes, `write_all` (1) only returns `Ok`
with the cumulative count equal to the full buffer length, (2) returns
`Ok` as soon as the successful partial writes sum to the buffer length,
and (3) returns a write error at the first OS failure, at which point
exactly the bytes of the preceding partial writes — not rolled back —
have been sent. -/
theorem write_all_loops_until_done (bufLen : Nat) (steps : List WStep)
    (hb : boundedSteps bufLen 0 steps = true) :
    (∀ t, write_all bufLen steps = some (Except.ok t) → t = bufLen) ∧
    (∀ (ns : List Nat) (rest : List WStep),
        steps = ns.map WStep.wok ++ rest → bufLen ≤ ns.sum →
        write_all bufLen steps = some (Except.ok bufLen)) ∧
    (∀ (ns : List Nat) (rest : List WStep),
        steps = ns.map WStep.wok ++ WStep.werr :: rest →
        ns.sum < bufLen →
        write_all bufLen steps = some (Except.error ns.sum)) := by
  refine ⟨?_, ?_, ?_⟩
  · intro t h
    exact write_all_go_ok_eq_bufLen bufLen steps 0 t (Nat.zero_le _) hb h
  · intro ns rest hsteps hsum
    subst hsteps
    exact write_all_go_completes bufLen ns rest 0 (Nat.zero_le _) hb (by omega)
  · intro ns rest hsteps hsum
    subst hsteps
    have hgo := write_all_go_error_total bufLen ns rest 0 (by omega)
    simpa using hgo

/-- Witness for C5: a 5-byte buffer sent as a partial write of 2 bytes
followed by an OS error fails with exactly 2 bytes already sent; sent as
partial writes of 2 and 3 bytes it completes. -/
theorem write_all_loops_until_done_witness :
    write_all 5 [WStep.wok 2, WStep.werr] = some (Except.error 2) ∧
    write_all 5 [WStep.wok 2, WStep.wok 3] = some (Except.ok 5) := by
  constructor
  · have h := (write_all_loops_until_done 5 [WStep.wok 2, WStep.werr]
      (by decide)).2.2 [2] [] rfl (by decide)
    simpa using h
  · have h := (write_all_loops_until_done 5 [WStep.wok 2, WStep.wok 3]
      (by decide)).2.1 [2, 3] [] rfl (by decide)
    simpa using h

/-- Claim C7: on an IPv6 endpoint, whenever the OS calls preceding the
address match succeed (socket creation and `SO_REUSEADDR`), `bind` panics
— aborting the process — instead of returning an error; and the only
error returns possible for an IPv6 endpoint stem from those two earlier
OS calls, never from the address family itself. -/
theorem bind_ipv6_panics (os : BindOracle) (fd : Nat)
    (h1 : os.socketFd = some fd) (h2 : os.sockoptOk = true) :
    custom_bind RSocketAddr.v6 os =
      (BindResult.panicked "IPv6 not supported in this example", [fd], []) ∧
    (∀ os2 : BindOracle, (custom_bind RSocketAddr.v6 os2).1 = BindResult.osError →
        os2.socketFd = none ∨ os2.sockoptOk = false) := by
  constructor
  · simp [custom_bind, h1, h2]
  · intro os2 herr
    cases hfd : os2.socketFd with
    | none => exact Or.inl rfl
    | some fd2 =>
      cases hso : os2.sockoptOk with
      | false => exact Or.inr rfl
      | true => simp [custom_bind, hfd, hso] at herr

/-- Witness for C7: with all OS calls succeeding (socket returns fd 3),
binding an IPv6 address panics and leaves fd 3 unclosed. -/
theorem bind_ipv6_panics_witness :
    custom_bind RSocketAddr.v6 (BindOracle.mk (some 3) true true true) =
      (BindResult.panicked "IPv6 not supported in this example", [3], []) :=
  (bind_ipv6_panics (BindOracle.mk (some 3) true true true) 3 rfl rfl).1

/-- Claim C8: the dispatch loop never leaves the `listening` state — for
every finite sequence of accept outcomes the final state is `listening` —
and it spawns exactly one processing unit per successful accept, in
order, while failed accepts spawn nothing and the loop retries. -/
theorem dispatch_loop_stays_listening (outcomes : List AcceptOutcome) :
    (dispatch_run LoopState.listening outcomes).1 = LoopState.listening ∧
    (dispatch_run LoopState.listening outcomes).2 =
      outcomes.filterMap (fun o =>
        match o with
        | AcceptOutcome.success fd => some fd
        | AcceptOutcome.failure => none) := by
  induction outcomes with
  | nil => exact ⟨rfl, rfl⟩
  | cons o rest ih =>
    cases o with
    | success fd =>
      simp only [dispatch_run, dispatch_step, List.filterMap_cons]
      rcases hrun : dispatch_run LoopState.listening rest with ⟨stF, spawned⟩
      rw [hrun] at ih
      simp_all
    | failure =>
      simp only [dispatch_run, dispatch_step, List.filterMap_cons]
      rcases hrun : dispatch_run LoopState.listening rest with ⟨stF, spawned⟩
      rw [hrun] at ih
      simp_all

/-- Claim C9: whenever `bind` returns an OS error — from `setsockopt`,
`bind` or `listen` failing, or from `socket` itself failing — every file
descriptor acquired up to that point has been closed before the return:
the closed list equals the acquired list. -/
theorem bind_failure_releases_resources (addr : RSocketAddr) (os : BindOracle)
    (h : (custom_bind addr os).1 = BindResult.osError) :
    (custom_bind addr os).2.2 = (custom_bind addr os).2.1 := by
  cases hfd : os.socketFd with
  | none => simp [custom_bind, hfd]
  | some fd =>
    cases hso : os.sockoptOk with
    | false => simp [custom_bind, hfd, hso]
    | true =>
      cases addr with
      | v6 => simp [custom_bind, hfd, hso] at h
      | v4 ip port =>
        cases hbind : os.osBindOk with
        | false => simp [custom_bind, hfd, hso, hbind]
        | true =>
          cases hlisten : os.osListenOk with
          | false => simp [custom_bind, hfd, hso, hbind, hlisten]
          | true => simp [custom_bind, hfd, hso, hbind, hlisten] at h

/-- Witness for C9: a failing `setsockopt` after `socket` returned fd 3
yields an error return with fd 3 both acquired and closed. -/
theorem bind_failure_releases_resources_witness :
    (custom_bind (RSocketAddr.v4 0 8080)
        (BindOracle.mk (some 3) false true true)).2.2 =
      (custom_bind (RSocketAddr.v4 0 8080)
        (BindOracle.mk (some 3) false true true)).2.1 :=
  bind_failure_releases_resources (RSocketAddr.v4 0 8080)
    (BindOracle.mk (some 3) false true true) (by decide)
